import Mathlib

/-!
Verification of the etrace error-annotation library (Go) against its
specification, via a shallow embedding of the code in Lean 4.

Embedding conventions:
* A Go `error` interface value is modelled by `Etrace.Err`:
  - `Err.node` is a `*Stacktrace` value (fields in source order:
    message, cause, code, statusCode, file, function, line);
  - `Err.plain` is any non-`*Stacktrace` error.  Go error values are
    (dynamic type, value) pairs, so a plain error carries a `tag`
    identifying its dynamic type besides its `Error()` text;
    `errors.New` / `fmt.Errorf` (without the wrap directive) produce the
    dynamic type `*errors.errorString`, modelled as tag `0`.
  A nilable `error` is `Option Err` (`none` = Go `nil`).
* `ErrorCode` (Go `uint16`) is modelled as `Nat`; the library performs no
  arithmetic on codes, so values stay in range whenever inputs do.
  Go `int` fields (`statusCode`, `line`) are modelled as `Int`.
* `fmt.Sprintf(msg, vals...)` at the API boundary is modelled by taking
  the already-formatted string as the parameter: the claims under study
  do not concern the printf directive language.
* Call-site capture (`runtime.Caller` / `runtime.FuncForPC` /
  `CleanPath`) is runtime-specific; following the spec's design note it
  is abstracted as a provider value `Option CallSite` passed to the
  constructors: `none` models `runtime.Caller` failing (fields stay
  empty/zero), `some cs` models a successful capture with the path
  already cleaned.  `cs.function = ""` covers `runtime.FuncForPC`
  returning nil.
* `errors.As(err, &trace)` succeeds exactly when `err` is a
  `*Stacktrace`: `Stacktrace` declares no `Unwrap` method, and terminal
  errors are modelled as opaque values with no unwrap chain of their
  own.
-/

namespace Etrace

/-- Call-site metadata as captured at construction time (file already
passed through `CleanPath`). -/
structure CallSite where
  file : String
  function : String
  line : Int

/-- A Go `error` value in the world of this library: either a
`*Stacktrace` node (source: `type Stacktrace struct` in etrace.go) or a
terminal plain error of some other dynamic type. -/
inductive Err : Type where
  | node (message : String) (cause : Option Err) (code : Nat)
      (statusCode : Int) (file : String) (function : String)
      (line : Int) : Err
  | plain (tag : Nat) (text : String) : Err

/-- `const NoCode ErrorCode = math.MaxUint16` (etrace.go). -/
def NoCode : Nat := 65535

/-- Modelled from the spec: the constant `NoStatusCode` is declared in a
repository file that is not among the source files; the spec (§3) only
says the status code has "its own 'unset' sentinel" with the identical
inheritance rule.  No claim below depends on the concrete value; it is
chosen to mirror `NoCode`. -/
def NoStatusCode : Int := 65535

/-- `func GetCode(err error) ErrorCode` (etrace.go): `errors.As` finds a
`*Stacktrace` exactly when `err` itself is one (no `Unwrap` method
exists); then return its `code` field, else `NoCode`. -/
def GetCode : Option Err → Nat
  | some (Err.node _ _ code _ _ _ _) => code
  | _ => NoCode

/-- `func GetStatusCode(err error) int` (etrace.go). -/
def GetStatusCode : Option Err → Int
  | some (Err.node _ _ _ statusCode _ _ _) => statusCode
  | _ => NoStatusCode

/-- `func create(cause error, code ErrorCode, statusCode int, msg string,
vals ...interface{}) error` (etrace.go).  Inherits unset code/status
from the cause, then fills call-site metadata if capture succeeds. -/
def create (cs : Option CallSite) (cause : Option Err) (code : Nat)
    (statusCode : Int) (msg : String) : Err :=
  let code := if code = NoCode then GetCode cause else code
  let statusCode :=
    if statusCode = NoStatusCode then GetStatusCode cause else statusCode
  match cs with
  | none => Err.node msg cause code statusCode "" "" 0
  | some c => Err.node msg cause code statusCode c.file c.function c.line

/-- `func NewError(msg string, vals ...interface{}) error` (etrace.go):
`e := fmt.Errorf(msg, vals...); return create(e, NoCode, NoStatusCode, "")`. -/
def NewError (cs : Option CallSite) (msg : String) : Err :=
  create cs (some (Err.plain 0 msg)) NoCode NoStatusCode ""

/-- `func Wrap(cause error) error` (etrace.go). -/
def Wrap (cs : Option CallSite) (cause : Option Err) : Option Err :=
  match cause with
  | none => none
  | some c => some (create cs (some c) NoCode NoStatusCode "")

/-- `func WrapWithCode(code ErrorCode, cause error) error` (etrace.go). -/
def WrapWithCode (cs : Option CallSite) (code : Nat)
    (cause : Option Err) : Option Err :=
  match cause with
  | none => none
  | some c => some (create cs (some c) code NoStatusCode "")

/-- `func WrapWithStatusCode(code int, cause error) error` (etrace.go). -/
def WrapWithStatusCode (cs : Option CallSite) (code : Int)
    (cause : Option Err) : Option Err :=
  match cause with
  | none => none
  | some c => some (create cs (some c) NoCode code "")

/-- `func Propagate(cause error, msg string, vals ...interface{}) error`
(etrace.go): nil cause short-circuits to nil. -/
def Propagate (cs : Option CallSite) (cause : Option Err)
    (msg : String) : Option Err :=
  match cause with
  | none => none
  | some c => some (create cs (some c) NoCode NoStatusCode msg)

/-- `func PropagateWithCode(cause error, code ErrorCode, msg string,
vals ...interface{}) error` (etrace.go). -/
def PropagateWithCode (cs : Option CallSite) (cause : Option Err)
    (code : Nat) (msg : String) : Option Err :=
  match cause with
  | none => none
  | some c => some (create cs (some c) code NoStatusCode msg)

/-- `func PropagateWithStatusCode(cause error, code int, msg string,
vals ...interface{}) error` (etrace.go). -/
def PropagateWithStatusCode (cs : Option CallSite) (cause : Option Err)
    (code : Int) (msg : String) : Option Err :=
  match cause with
  | none => none
  | some c => some (create cs (some c) NoCode code msg)

/-- `func NewErrorWithCode(code ErrorCode, msg string, vals
...interface{}) error` (etrace.go). -/
def NewErrorWithCode (cs : Option CallSite) (code : Nat)
    (msg : String) : Err :=
  create cs (some (Err.plain 0 msg)) code NoStatusCode ""

/-- `func NewErrorWithStatusCode(statusCode int, msg string, vals
...interface{}) error` (etrace.go). -/
def NewErrorWithStatusCode (cs : Option CallSite) (statusCode : Int)
    (msg : String) : Err :=
  create cs (some (Err.plain 0 msg)) NoCode statusCode ""

/-- `func NewMessageWithCode(code ErrorCode, msg string, vals
...interface{}) error` (etrace.go): a struct literal setting only
`message` and `code`; every other field keeps its Go zero value
(`cause` nil, `statusCode` 0, strings empty, `line` 0). -/
def NewMessageWithCode (code : Nat) (msg : String) : Err :=
  Err.node msg none code 0 "" "" 0

/-- `func NewMessageWithStatusCode(code int, msg string, vals
...interface{}) error` (etrace.go): a struct literal setting only
`message` and `statusCode`; the `code` field keeps its Go zero value 0
(not `NoCode`). -/
def NewMessageWithStatusCode (code : Int) (msg : String) : Err :=
  Err.node msg none 0 code "" "" 0

/-- `func (st *Stacktrace) ExitCode() int` (etrace.go).  The receiver is
a `*Stacktrace`, so the `plain` case is unreachable from Go. -/
def ExitCode : Err → Int
  | Err.node _ _ code _ _ _ _ => if code = NoCode then 1 else (code : Int)
  | Err.plain _ _ => 1

/-- `func RootCause(err error) error` (cause.go).  The loop: while `err`
is a `*Stacktrace`, return `errors.New(st.message)` when its cause is
nil, else continue into the cause; a non-`*Stacktrace` argument is
returned unchanged (its tag is preserved: no fresh error is built). -/
def RootCause : Option Err → Option Err
  | none => none
  | some (Err.plain tag t) => some (Err.plain tag t)
  | some (Err.node m none _ _ _ _ _) => some (Err.plain 0 m)
  | some (Err.node _ (some c) _ _ _ _ _) => RootCause (some c)

/-- `type Format int` with `const (FFormatFull Format = iota;
FFormatBrief)` (format.go). -/
inductive Format : Type where
  | FFormatFull : Format
  | FFormatBrief : Format

/-- The `newline` closure in `FormatFull` (format.go): appends a tab
when the accumulator is non-empty and does not already end in a
newline. -/
def fullNewline (str : String) : String :=
  if str ≠ "" ∧ ¬(str.endsWith "\n") then str ++ "\t" else str

/-- The loop body of `func FormatFull(st *Stacktrace) string`
(format.go), with the accumulator `str` explicit and the current node's
fields as parameters: append the message; if `file` is non-empty append
`" file:line"` (plus `" (function)"` when the function is known) after
the `newline` adjustment; then, for a non-nil cause, either append
`":" + cause.Error()` and stop (cause not a `*Stacktrace`) or append
`": "` when the cause node's message is non-empty and continue into the
cause. -/
def FormatFullLoop (str : String) (message : String) (cause : Option Err)
    (file : String) (function : String) (line : Int) : String :=
  let str := str ++ message
  let str :=
    if file ≠ "" then
      let str := fullNewline str
      if function = "" then str ++ " " ++ file ++ ":" ++ toString line
      else
        str ++ " " ++ file ++ ":" ++ toString line ++ " (" ++ function ++ ")"
    else str
  match cause with
  | none => str
  | some (Err.plain _ t) => str ++ ":" ++ t
  | some (Err.node m c _ _ f fn l) =>
      FormatFullLoop (if m ≠ "" then str ++ ": " else str) m c f fn l

/-- `func FormatFull(st *Stacktrace) string` (format.go).  The argument
is a `*Stacktrace`, so the `plain` case is unreachable from Go. -/
def FormatFull : Err → String
  | Err.node m c _ _ f fn l => FormatFullLoop "" m c f fn l
  | Err.plain _ _ => ""

/-- The `concat` closure in `FormatBrief` (format.go): inserts `": "`
only between two non-empty pieces. -/
def concatBrief (str msg : String) : String :=
  if str ≠ "" ∧ msg ≠ "" then str ++ ": " ++ msg else str ++ msg

/-- The loop of `func FormatBrief(st *Stacktrace) string` (format.go):
concat the current message; while the cause is a `*Stacktrace`,
continue into it; at the end, a non-nil non-node cause contributes its
`Error()` text through the same `concat`. -/
def FormatBriefLoop (str : String) (message : String)
    (cause : Option Err) : String :=
  let str := concatBrief str message
  match cause with
  | some (Err.node m c _ _ _ _ _) => FormatBriefLoop str m c
  | some (Err.plain _ t) => concatBrief str t
  | none => str

/-- `func FormatBrief(st *Stacktrace) string` (format.go).  The argument
is a `*Stacktrace`, so the `plain` case is unreachable from Go. -/
def FormatBrief : Err → String
  | Err.node m c _ _ _ _ _ => FormatBriefLoop "" m c
  | Err.plain _ _ => ""

/-- The lookup in the `DefaultFormat` map of `func (st *Stacktrace)
Format` (format.go): the process-wide default selector chooses between
the full and the brief rendering. -/
def defaultRender (dflt : Format) (st : Err) : String :=
  match dflt with
  | Format.FFormatFull => FormatFull st
  | Format.FFormatBrief => FormatBrief st

/-- The text selection of `func (st *Stacktrace) Format(f fmt.State,
c rune)` (format.go): `"%+s"` (flag `+` set, flag `#` not set, verb
`s`) forces `FormatFull`; `"%#s"` (flag `#` set, flag `+` not set,
verb `s`) forces `FormatBrief`; every other flag/verb combination uses
the process-wide `DefaultFormat` (modelled as the parameter `dflt`).
The trailing `fmt.Fprintf` re-applies the generic flags, width and
precision around the chosen text and writes it verbatim when none are
given; that generic pass-through is not modelled. -/
def StacktraceFormat (plusFlag hashFlag : Bool) (verb : Char)
    (dflt : Format) (st : Err) : String :=
  if plusFlag = true ∧ hashFlag = false ∧ verb = 's' then FormatFull st
  else if hashFlag = true ∧ plusFlag = false ∧ verb = 's' then
    FormatBrief st
  else defaultRender dflt st

/-- The `Error()` text of an error value: a plain error's `Error()` is
its own text; a `*Stacktrace`'s `Error()` is `fmt.Sprint(st)`
(etrace.go), which invokes `Format` with verb `v` and no flags and so
selects the process-wide default rendering. -/
def ErrText (dflt : Format) : Err → String
  | Err.plain _ t => t
  | Err.node m c code statusCode f fn l =>
      defaultRender dflt (Err.node m c code statusCode f fn l)

/-- The `message` field of a `*Stacktrace` (a plain error has no such
field; its `Error()` text is returned for totality). -/
def Err.messageOf : Err → String
  | Err.node m _ _ _ _ _ _ => m
  | Err.plain _ t => t

/-- The `cause` field of a `*Stacktrace` (nil for a plain error, which
has no such field). -/
def Err.causeOf : Err → Option Err
  | Err.node _ c _ _ _ _ _ => c
  | Err.plain _ _ => none

/-- The `code` field of a `*Stacktrace` (`NoCode` for a plain error,
which has no such field). -/
def Err.codeOf : Err → Nat
  | Err.node _ _ code _ _ _ _ => code
  | Err.plain _ _ => NoCode

/-- The `statusCode` field of a `*Stacktrace` (`NoStatusCode` for a
plain error, which has no such field). -/
def Err.statusCodeOf : Err → Int
  | Err.node _ _ _ statusCode _ _ _ => statusCode
  | Err.plain _ _ => NoStatusCode

/-- Number of consecutive `*Stacktrace` nodes from the head of the
chain: the number of iterations each traversal loop performs. -/
def nodeDepth : Option Err → Nat
  | none => 0
  | some (Err.plain _ _) => 0
  | some (Err.node _ c _ _ _ _ _) => nodeDepth c + 1

/-- Step-indexed `RootCause`: one unit of fuel per loop iteration of the
Go `for` loop in cause.go; `none` means the fuel ran out before the
loop exited. -/
def RootCauseFuel : Nat → Option Err → Option (Option Err)
  | 0, _ => none
  | _ + 1, none => some none
  | _ + 1, some (Err.plain tag t) => some (some (Err.plain tag t))
  | _ + 1, some (Err.node m none _ _ _ _ _) => some (some (Err.plain 0 m))
  | n + 1, some (Err.node _ (some c) _ _ _ _ _) => RootCauseFuel n (some c)

/-- Step-indexed `FormatFullLoop`: one unit of fuel per iteration of the
Go `for` loop in `FormatFull` (format.go). -/
def FormatFullFuel : Nat → String → String → Option Err → String →
    String → Int → Option String
  | 0, _, _, _, _, _, _ => none
  | n + 1, str, message, cause, file, function, line =>
    let str := str ++ message
    let str :=
      if file ≠ "" then
        let str := fullNewline str
        if function = "" then str ++ " " ++ file ++ ":" ++ toString line
        else
          str ++ " " ++ file ++ ":" ++ toString line ++ " (" ++ function
            ++ ")"
      else str
    match cause with
    | none => some str
    | some (Err.plain _ t) => some (str ++ ":" ++ t)
    | some (Err.node m c _ _ f fn l) =>
        FormatFullFuel n (if m ≠ "" then str ++ ": " else str) m c f fn l

/-- Step-indexed `FormatBriefLoop`: one unit of fuel per iteration of
the Go `for` loop in `FormatBrief` (format.go). -/
def FormatBriefFuel : Nat → String → String → Option Err → Option String
  | 0, _, _, _ => none
  | n + 1, str, message, cause =>
    let str := concatBrief str message
    match cause with
    | some (Err.node m c _ _ _ _ _) => FormatBriefFuel n str m c
    | some (Err.plain _ t) => some (concatBrief str t)
    | none => some str

/-- A chain of `n` `Wrap` calls (all with the same call-site provider)
around an error. -/
def wrapN (cs : Option CallSite) : Nat → Option Err → Option Err
  | 0, e => e
  | n + 1, e => Wrap cs (wrapN cs n e)

/-- An arbitrary sequence of wrapping steps that carry no explicit
code: each step is either a `Wrap` (no message) or a `Propagate` (with
a message), applied innermost first. -/
def wrapSeq : List (Option CallSite × Option String) → Option Err →
    Option Err
  | [], e => e
  | (cs, none) :: rest, e => wrapSeq rest (Wrap cs e)
  | (cs, some m) :: rest, e => wrapSeq rest (Propagate cs e m)

/-- `true` iff no node anywhere in the chain carries a code other than
the `NoCode` sentinel — i.e. no error code was ever attached. -/
def codeFreeChain : Err → Bool
  | Err.plain _ _ => true
  | Err.node _ none code _ _ _ _ => code == NoCode
  | Err.node _ (some c) code _ _ _ _ => code == NoCode && codeFreeChain c

/-- Walk `cause` while it is itself a `*Stacktrace`: the innermost node
of a chain headed by a node (a non-node value is returned as is). -/
def innermostNode : Err → Err
  | Err.plain tag t => Err.plain tag t
  | Err.node m none code sc f fn l => Err.node m none code sc f fn l
  | Err.node m (some (Err.plain tag t)) code sc f fn l =>
      Err.node m (some (Err.plain tag t)) code sc f fn l
  | Err.node _ (some (Err.node m' c' code' sc' f' fn' l')) _ _ _ _ _ =>
      innermostNode (Err.node m' c' code' sc' f' fn' l')

/-- The node messages of a chain, outermost first, followed by the
terminal plain error's text when the chain ends in one (these are
exactly the strings the brief rendering passes to its `concat`
closure). -/
def briefMsgs : Option Err → List String
  | some (Err.node m c _ _ _ _ _) => m :: briefMsgs c
  | some (Err.plain _ t) => [t]
  | none => []

/-- Pieces joined on one line separated by `": "`. -/
def joinColon : List String → String
  | [] => ""
  | [m] => m
  | m :: rest => m ++ ": " ++ joinColon rest

/-- Modelled from the spec's words for the brief rendering (the
refinement target, deliberately not taken from the code): "concatenate
every node's message on one line, separated by `\x22: \x22` (skipping
empty messages so no dangling separator appears at the boundary),
ending with the terminal cause's text if the final cause is a plain
(non-node) error". -/
def briefSpec (msgs : List String) : String :=
  joinColon (msgs.filter (fun m => m != ""))

/-- The three-level chain of the spec's brief-format example: messages
"a", "b", "c" (innermost to outermost) wrapping the terminal plain
error "boom", built through the public `Propagate` API. -/
def exampleChain : Option Err :=
  Propagate none
    (Propagate none
      (Propagate none (some (Err.plain 0 "boom")) "a") "b") "c"

section HelperLemmas

theorem string_append_ne_empty_left (a b : String) (h : a ≠ "") :
    a ++ b ≠ "" := by
  intro hc
  apply h
  apply String.ext
  have h2 := congrArg String.data hc
  rw [String.data_append] at h2
  have : a.data = [] := (List.append_eq_nil.mp h2).1
  simpa using this

theorem GetCode_some (e : Err) : GetCode (some e) = e.codeOf := by
  cases e <;> rfl

theorem GetStatusCode_some (e : Err) :
    GetStatusCode (some e) = e.statusCodeOf := by
  cases e <;> rfl

theorem codeOf_create (cs : Option CallSite) (cause : Option Err)
    (code : Nat) (statusCode : Int) (msg : String) :
    (create cs cause code statusCode msg).codeOf =
      if code = NoCode then GetCode cause else code := by
  cases cs <;> simp [create, Err.codeOf]

theorem statusCodeOf_create (cs : Option CallSite) (cause : Option Err)
    (code : Nat) (statusCode : Int) (msg : String) :
    (create cs cause code statusCode msg).statusCodeOf =
      if statusCode = NoStatusCode then GetStatusCode cause
      else statusCode := by
  cases cs <;> simp [create, Err.statusCodeOf]

theorem GetCode_Wrap (cs : Option CallSite) (e : Option Err) :
    GetCode (Wrap cs e) = GetCode e := by
  cases e with
  | none => rfl
  | some c =>
      rw [Wrap, GetCode_some, codeOf_create]
      simp

theorem GetStatusCode_Wrap (cs : Option CallSite) (e : Option Err) :
    GetStatusCode (Wrap cs e) = GetStatusCode e := by
  cases e with
  | none => rfl
  | some c =>
      rw [Wrap, GetStatusCode_some, statusCodeOf_create]
      simp

theorem GetCode_Propagate (cs : Option CallSite) (e : Option Err)
    (msg : String) : GetCode (Propagate cs e msg) = GetCode e := by
  cases e with
  | none => rfl
  | some c =>
      rw [Propagate, GetCode_some, codeOf_create]
      simp

theorem GetStatusCode_Propagate (cs : Option CallSite) (e : Option Err)
    (msg : String) :
    GetStatusCode (Propagate cs e msg) = GetStatusCode e := by
  cases e with
  | none => rfl
  | some c =>
      rw [Propagate, GetStatusCode_some, statusCodeOf_create]
      simp

theorem wrapSeq_GetCode :
    ∀ (steps : List (Option CallSite × Option String)) (e : Option Err),
      GetCode (wrapSeq steps e) = GetCode e ∧
      GetStatusCode (wrapSeq steps e) = GetStatusCode e
  | [], e => ⟨rfl, rfl⟩
  | (cs, none) :: rest, e => by
      have ih := wrapSeq_GetCode rest (Wrap cs e)
      rw [wrapSeq, ih.1, ih.2, GetCode_Wrap, GetStatusCode_Wrap]
      exact ⟨rfl, rfl⟩
  | (cs, some m) :: rest, e => by
      have ih := wrapSeq_GetCode rest (Propagate cs e m)
      rw [wrapSeq, ih.1, ih.2, GetCode_Propagate, GetStatusCode_Propagate]
      exact ⟨rfl, rfl⟩

end HelperLemmas

/-- C1: wrapping an error without an explicit code (via `Wrap` or
`Propagate`) yields a node whose `GetCode` equals the `GetCode` of the
cause, and the same equality persists through any sequence of such
wraps; `GetStatusCode` obeys the identical rule independently. -/
theorem C1_code_inheritance (cs : Option CallSite) (e : Option Err)
    (msg : String) (steps : List (Option CallSite × Option String)) :
    GetCode (Wrap cs e) = GetCode e ∧
    GetStatusCode (Wrap cs e) = GetStatusCode e ∧
    GetCode (Propagate cs e msg) = GetCode e ∧
    GetStatusCode (Propagate cs e msg) = GetStatusCode e ∧
    GetCode (wrapSeq steps e) = GetCode e ∧
    GetStatusCode (wrapSeq steps e) = GetStatusCode e :=
  ⟨GetCode_Wrap cs e, GetStatusCode_Wrap cs e, GetCode_Propagate cs e msg,
    GetStatusCode_Propagate cs e msg, (wrapSeq_GetCode steps e).1,
    (wrapSeq_GetCode steps e).2⟩

/-- C5: every construction function that receives a nil cause returns
nil: `Wrap`, `WrapWithCode`, `WrapWithStatusCode`, `Propagate`,
`PropagateWithCode` and `PropagateWithStatusCode` all short-circuit on
a nil cause, for every message, code and status code. -/
theorem C5_nil_short_circuit (cs : Option CallSite) (m : String)
    (code : Nat) (statusCode : Int) :
    Wrap cs none = none ∧
    WrapWithCode cs code none = none ∧
    WrapWithStatusCode cs statusCode none = none ∧
    Propagate cs none m = none ∧
    PropagateWithCode cs none code m = none ∧
    PropagateWithStatusCode cs none statusCode m = none :=
  ⟨rfl, rfl, rfl, rfl, rfl, rfl⟩

/-- C10: a node built by `NewMessageWithStatusCode` carries the `code`
field's Go zero value 0, not the `NoCode` sentinel (65535); hence
`GetCode` on it returns 0 and `ExitCode` returns 0, although the caller
never attached an error code. -/
theorem C10_status_message_zero_code (statusCode : Int) (m : String) :
    (NewMessageWithStatusCode statusCode m).codeOf = 0 ∧
    (0 : Nat) ≠ NoCode ∧
    GetCode (some (NewMessageWithStatusCode statusCode m)) = 0 ∧
    ExitCode (NewMessageWithStatusCode statusCode m) = 0 := by
  refine ⟨rfl, by decide, rfl, ?_⟩
  simp [NewMessageWithStatusCode, ExitCode, NoCode]

section RootCauseLemmas

theorem rootCause_node_eq :
    ∀ (c : Option Err) (m : String) (code : Nat) (statusCode : Int)
      (f fn : String) (l : Int),
      RootCause (some (Err.node m c code statusCode f fn l)) =
        (match innermostNode (Err.node m c code statusCode f fn l) with
          | Err.node m' none _ _ _ _ _ => some (Err.plain 0 m')
          | Err.node _ (some t) _ _ _ _ _ => some t
          | Err.plain tag t => some (Err.plain tag t))
  | none, m, code, statusCode, f, fn, l => by
      rw [RootCause, innermostNode]
  | some (Err.plain tag t), m, code, statusCode, f, fn, l => by
      rw [RootCause, RootCause, innermostNode]
  | some (Err.node m' c' code' sc' f' fn' l'), m, code, statusCode, f,
      fn, l => by
      rw [RootCause, innermostNode]
      exact rootCause_node_eq c' m' code' sc' f' fn' l'

theorem rootCause_Wrap (cs : Option CallSite) (e : Err) :
    RootCause (Wrap cs (some e)) = RootCause (some e) := by
  cases cs <;> rw [Wrap, create] <;> rw [RootCause]

theorem wrapN_some (cs : Option CallSite) :
    ∀ (n : Nat) (e : Err), ∃ x : Err, wrapN cs n (some e) = some x
  | 0, e => ⟨e, rfl⟩
  | n + 1, e => by
      obtain ⟨x, hx⟩ := wrapN_some cs n e
      rw [wrapN, hx]
      cases cs <;> exact ⟨_, rfl⟩

theorem rootCause_wrapN (cs : Option CallSite) :
    ∀ (n : Nat) (e : Err),
      RootCause (wrapN cs n (some e)) = RootCause (some e)
  | 0, e => rfl
  | n + 1, e => by
      obtain ⟨x, hx⟩ := wrapN_some cs n e
      rw [wrapN, hx, rootCause_Wrap, ← hx, rootCause_wrapN cs n e]

end RootCauseLemmas

/-- C3 counterexample: for the node `"ctx"` wrapping the terminal error
`Err.plain 1 "boom"` (dynamic type tag 1, i.e. not an
`*errors.errorString`), `RootCause` returns that cause itself — tag
preserved — and not a freshly constructed error from its text, which
would be `Err.plain 0 "boom"`. -/
theorem C3_counterexample :
    RootCause (some (Err.node "ctx" (some (Err.plain 1 "boom")) NoCode
        NoStatusCode "" "" 0)) = some (Err.plain 1 "boom") ∧
    Err.plain 1 "boom" ≠ Err.plain 0 "boom" := by
  constructor
  · rw [RootCause, RootCause]
  · intro h
    injection h with h1 h2
    cases h1

/-- C3 (amended): `RootCause` walks to the innermost node of the chain;
if that innermost node has a cause, it returns that cause itself,
unchanged (not a fresh error built from its text); if the innermost
node has no cause, it returns a fresh plain error built from that
node's own message; and a non-node argument (or nil) is returned
unchanged. -/
theorem C3_root_cause_characterisation :
    (∀ (tag : Nat) (t : String),
      RootCause (some (Err.plain tag t)) = some (Err.plain tag t)) ∧
    RootCause none = none ∧
    (∀ (m : String) (c : Option Err) (code : Nat) (statusCode : Int)
      (f fn : String) (l : Int),
      RootCause (some (Err.node m c code statusCode f fn l)) =
        (match innermostNode (Err.node m c code statusCode f fn l) with
          | Err.node m' none _ _ _ _ _ => some (Err.plain 0 m')
          | Err.node _ (some t) _ _ _ _ _ => some t
          | Err.plain tag t => some (Err.plain tag t))) :=
  ⟨fun tag t => by rw [RootCause], by rw [RootCause],
    fun m c code statusCode f fn l =>
      rootCause_node_eq c m code statusCode f fn l⟩

/-- C2 counterexample: `NewError` does not return a causeless node
carrying the formatted text as its message: `NewError(..., "boom")`
yields a node whose `cause` field is the plain formatted error (not
nil) and whose own `message` field is empty (not `"boom"`). -/
theorem C2_counterexample :
    (NewError none "boom").causeOf = some (Err.plain 0 "boom") ∧
    (NewError none "boom").causeOf ≠ none ∧
    (NewError none "boom").messageOf = "" ∧
    (NewError none "boom").messageOf ≠ "boom" := by
  have h1 : (NewError none "boom").causeOf = some (Err.plain 0 "boom") :=
    rfl
  have h2 : (NewError none "boom").messageOf = "" := rfl
  refine ⟨h1, ?_, h2, ?_⟩
  · rw [h1]
    simp
  · rw [h2]
    decide

/-- C2 (amended): `NewError` formats the message into a plain error
`e` and wraps it: the returned node has empty message, cause `e`,
unset code and unset status code (the construction-time lookup on the
plain cause yields both sentinels), and carries exactly the call-site
metadata the capture step produced (empty/zero when capture failed). -/
theorem C2_new_error_shape (cs : Option CallSite) (msg : String) :
    (NewError cs msg).messageOf = "" ∧
    (NewError cs msg).causeOf = some (Err.plain 0 msg) ∧
    (NewError cs msg).codeOf = NoCode ∧
    (NewError cs msg).statusCodeOf = NoStatusCode ∧
    GetCode (some (NewError cs msg)) = NoCode ∧
    GetStatusCode (some (NewError cs msg)) = NoStatusCode ∧
    NewError cs msg =
      (match cs with
        | none =>
          Err.node "" (some (Err.plain 0 msg)) NoCode NoStatusCode "" "" 0
        | some c =>
          Err.node "" (some (Err.plain 0 msg)) NoCode NoStatusCode
            c.file c.function c.line) := by
  cases cs <;>
    exact ⟨rfl, rfl, rfl, rfl, rfl, rfl, rfl⟩

/-- C4 counterexample: attaching the error code 1 explicitly
(`WrapWithCode(1, ...)`) produces a node whose `ExitCode` is 1 even
though a code (≠ `NoCode`) is attached to the chain — refuting
"returns 1 exactly when no code was ever attached". -/
theorem C4_counterexample :
    WrapWithCode none 1 (some (Err.plain 0 "boom")) =
      some (Err.node "" (some (Err.plain 0 "boom")) 1 NoStatusCode
        "" "" 0) ∧
    ExitCode (Err.node "" (some (Err.plain 0 "boom")) 1 NoStatusCode
      "" "" 0) = 1 ∧
    codeFreeChain (Err.node "" (some (Err.plain 0 "boom")) 1 NoStatusCode
      "" "" 0) = false := by
  refine ⟨?_, ?_, by decide⟩
  · rw [WrapWithCode, create]
    simp [GetStatusCode, NoCode]
  · simp [ExitCode, NoCode]

/-- C4 (amended): `ExitCode` returns 1 if the node's code is the
`NoCode` sentinel and the code's integer value otherwise; in
particular it returns 1 whenever no code was ever attached anywhere in
the chain (but the converse fails when the attached code is literally
1). -/
theorem C4_exit_code (m : String) (c : Option Err) (code : Nat)
    (statusCode : Int) (f fn : String) (l : Int) :
    ExitCode (Err.node m c code statusCode f fn l) =
      (if code = NoCode then 1 else (code : Int)) ∧
    (codeFreeChain (Err.node m c code statusCode f fn l) = true →
      ExitCode (Err.node m c code statusCode f fn l) = 1) := by
  constructor
  · rfl
  · intro h
    have hcode : code = NoCode := by
      cases c with
      | none =>
          simp [codeFreeChain] at h
          exact h
      | some c' =>
          simp [codeFreeChain] at h
          exact h.1
    rw [ExitCode, if_pos hcode]

/-- C4 witness: at a causeless node with code `NoCode`, the chain is
code-free and `ExitCode` is 1. -/
theorem C4_exit_code_witness :
    codeFreeChain (Err.node "x" none NoCode 0 "" "" 0) = true ∧
    ExitCode (Err.node "x" none NoCode 0 "" "" 0) = 1 :=
  ⟨by decide, (C4_exit_code "x" none NoCode 0 "" "" 0).2 (by decide)⟩

/-- C6: for every number `n` of wraps around a plain (non-node)
terminal error, `RootCause` of the resulting chain returns an error
whose `Error()` text equals the terminal error's text (it is in fact
the terminal error itself), regardless of `n`. -/
theorem C6_root_cause_through_wraps (n : Nat) (cs : Option CallSite)
    (tag : Nat) (t : String) (dflt : Format) :
    RootCause (wrapN cs n (some (Err.plain tag t))) =
      some (Err.plain tag t) ∧
    ErrText dflt (Err.plain tag t) = t := by
  constructor
  · rw [rootCause_wrapN, RootCause]
  · rw [ErrText]

/-- C8: the text selection of `Format`: `%+s` forces the full
rendering and `%#s` forces the brief rendering regardless of the
process-wide default selector, while every other flag/verb combination
falls back to the process-wide default. -/
theorem C8_format_directives (dflt : Format) (st : Err)
    (plusFlag hashFlag : Bool) (verb : Char) :
    StacktraceFormat true false 's' dflt st = FormatFull st ∧
    StacktraceFormat false true 's' dflt st = FormatBrief st ∧
    (verb ≠ 's' ∨ plusFlag = hashFlag →
      StacktraceFormat plusFlag hashFlag verb dflt st =
        defaultRender dflt st) := by
  refine ⟨?_, ?_, ?_⟩
  · rw [StacktraceFormat, if_pos ⟨rfl, rfl, rfl⟩]
  · rw [StacktraceFormat, if_neg (by simp), if_pos ⟨rfl, rfl, rfl⟩]
  · intro h
    rcases h with h | h
    · have h1 : ¬(plusFlag = true ∧ hashFlag = false ∧ verb = 's') := by
        intro hc
        exact h hc.2.2
      have h2 : ¬(hashFlag = true ∧ plusFlag = false ∧ verb = 's') := by
        intro hc
        exact h hc.2.2
      rw [StacktraceFormat, if_neg h1, if_neg h2]
    · have h1 : ¬(plusFlag = true ∧ hashFlag = false ∧ verb = 's') := by
        intro hc
        rw [hc.1, hc.2.1] at h
        cases h
      have h2 : ¬(hashFlag = true ∧ plusFlag = false ∧ verb = 's') := by
        intro hc
        rw [hc.1, hc.2.1] at h
        cases h
      rw [StacktraceFormat, if_neg h1, if_neg h2]

/-- C8 witness: at verb `v` with both `+` and `#` set and a full
default, the fallback case applies and yields the default rendering. -/
theorem C8_format_directives_witness :
    (('v' : Char) ≠ 's' ∨ (true : Bool) = true) ∧
    StacktraceFormat true true 'v' Format.FFormatFull (Err.plain 0 "x") =
      defaultRender Format.FFormatFull (Err.plain 0 "x") :=
  ⟨Or.inr rfl,
    (C8_format_directives Format.FFormatFull (Err.plain 0 "x") true true
      'v').2.2 (Or.inr rfl)⟩

section FuelLemmas

theorem rootCauseFuel_sufficient :
    ∀ (e : Option Err),
      RootCauseFuel (nodeDepth e + 1) e = some (RootCause e)
  | none => by rw [nodeDepth, RootCauseFuel, RootCause]
  | some (Err.plain tag t) => by
      rw [nodeDepth, RootCauseFuel, RootCause]
  | some (Err.node m none code sc f fn l) => by
      rw [nodeDepth, RootCauseFuel, RootCause]
  | some (Err.node m (some c') code sc f fn l) => by
      rw [nodeDepth, RootCauseFuel, RootCause]
      exact rootCauseFuel_sufficient (some c')

theorem formatFullFuel_sufficient :
    ∀ (c : Option Err) (str m f fn : String) (l : Int),
      FormatFullFuel (nodeDepth c + 1) str m c f fn l =
        some (FormatFullLoop str m c f fn l)
  | none, str, m, f, fn, l => by
      rw [nodeDepth, FormatFullFuel, FormatFullLoop]
  | some (Err.plain tag t), str, m, f, fn, l => by
      rw [nodeDepth, FormatFullFuel, FormatFullLoop]
  | some (Err.node m' c' code' sc' f' fn' l'), str, m, f, fn, l => by
      rw [nodeDepth, FormatFullFuel, FormatFullLoop]
      exact formatFullFuel_sufficient c' _ m' f' fn' l'

theorem formatBriefFuel_sufficient :
    ∀ (c : Option Err) (str m : String),
      FormatBriefFuel (nodeDepth c + 1) str m c =
        some (FormatBriefLoop str m c)
  | none, str, m => by
      rw [nodeDepth, FormatBriefFuel, FormatBriefLoop]
  | some (Err.plain tag t), str, m => by
      rw [nodeDepth, FormatBriefFuel, FormatBriefLoop]
  | some (Err.node m' c' code' sc' f' fn' l'), str, m => by
      rw [nodeDepth, FormatBriefFuel, FormatBriefLoop]
      exact formatBriefFuel_sufficient c' _ m'

end FuelLemmas

/-- C9: on the inductive (hence finite and acyclic) chain
representation, the traversals `RootCause`, `FormatFull` and
`FormatBrief` terminate: the step-indexed version of each loop, given
fuel equal to the number of chain nodes plus one, completes (returns
`some`) and computes the total function's value. -/
theorem C9_traversals_terminate :
    (∀ e : Option Err,
      RootCauseFuel (nodeDepth e + 1) e = some (RootCause e)) ∧
    (∀ (str m : String) (c : Option Err) (f fn : String) (l : Int),
      FormatFullFuel (nodeDepth c + 1) str m c f fn l =
        some (FormatFullLoop str m c f fn l)) ∧
    (∀ (str m : String) (c : Option Err),
      FormatBriefFuel (nodeDepth c + 1) str m c =
        some (FormatBriefLoop str m c)) ∧
    (∀ (m : String) (c : Option Err) (code : Nat) (statusCode : Int)
      (f fn : String) (l : Int),
      FormatFullFuel (nodeDepth c + 1) "" m c f fn l =
        some (FormatFull (Err.node m c code statusCode f fn l)) ∧
      FormatBriefFuel (nodeDepth c + 1) "" m c =
        some (FormatBrief (Err.node m c code statusCode f fn l))) := by
  refine ⟨rootCauseFuel_sufficient,
    fun str m c f fn l => formatFullFuel_sufficient c str m f fn l,
    fun str m c => formatBriefFuel_sufficient c str m,
    fun m c code statusCode f fn l => ⟨?_, ?_⟩⟩
  · rw [FormatFull]
    exact formatFullFuel_sufficient c "" m f fn l
  · rw [FormatBrief]
    exact formatBriefFuel_sufficient c "" m

section BriefLemmas

theorem concatBrief_empty_right (s : String) : concatBrief s "" = s := by
  rw [concatBrief]
  simp

theorem concatBrief_empty_left (s : String) : concatBrief "" s = s := by
  rw [concatBrief]
  simp

theorem joinColon_ne_empty :
    ∀ (l : List String), (∀ x ∈ l, x ≠ "") → l ≠ [] → joinColon l ≠ ""
  | [], _, hne => absurd rfl hne
  | [x], h, _ => by
      rw [joinColon]
      exact h x (by simp)
  | x :: y :: ys, h, _ => by
      rw [joinColon]
      · exact string_append_ne_empty_left _ _
          (string_append_ne_empty_left _ _ (h x (by simp)))
      · intro hc
        cases hc

theorem joinColon_cons_concat (a : String) (fl : List String)
    (ha : a ≠ "") (hall : ∀ x ∈ fl, x ≠ "") :
    joinColon (a :: fl) = concatBrief a (joinColon fl) := by
  cases fl with
  | nil => rw [joinColon, joinColon, concatBrief_empty_right]
  | cons x xs =>
      rw [joinColon]
      · have hJ : joinColon (x :: xs) ≠ "" :=
          joinColon_ne_empty _ hall (by simp)
        rw [concatBrief, if_pos ⟨ha, hJ⟩]
      · intro hc
        cases hc

theorem briefSpec_nil : briefSpec [] = "" := by
  rw [briefSpec, List.filter_nil, joinColon]

theorem briefSpec_cons_empty (l : List String) :
    briefSpec ("" :: l) = briefSpec l := by
  rw [briefSpec, briefSpec, List.filter_cons]
  simp

theorem briefSpec_cons_ne (a : String) (l : List String) (ha : a ≠ "") :
    briefSpec (a :: l) = concatBrief a (briefSpec l) := by
  rw [briefSpec, briefSpec, List.filter_cons, if_pos (by simpa using ha)]
  refine joinColon_cons_concat a _ ha ?_
  intro x hx
  simpa using List.of_mem_filter hx

theorem concatBrief_assoc (str a s : String) (ha : a ≠ "") :
    concatBrief (concatBrief str a) s = concatBrief str (concatBrief a s) := by
  by_cases hs : str = ""
  · subst hs
    rw [concatBrief_empty_left, concatBrief_empty_left]
  · by_cases hS : s = ""
    · subst hS
      rw [concatBrief_empty_right, concatBrief_empty_right]
    · have h1 : concatBrief str a = str ++ ": " ++ a := by
        rw [concatBrief, if_pos ⟨hs, ha⟩]
      have h2 : concatBrief a s = a ++ ": " ++ s := by
        rw [concatBrief, if_pos ⟨ha, hS⟩]
      have h3 : str ++ ": " ++ a ≠ "" :=
        string_append_ne_empty_left _ _
          (string_append_ne_empty_left _ _ hs)
      have h4 : a ++ ": " ++ s ≠ "" :=
        string_append_ne_empty_left _ _
          (string_append_ne_empty_left _ _ ha)
      rw [h1, h2, concatBrief, if_pos ⟨h3, hS⟩, concatBrief,
        if_pos ⟨hs, h4⟩]
      simp [String.append_assoc]

theorem foldl_concatBrief :
    ∀ (l : List String) (str : String),
      List.foldl concatBrief str l = concatBrief str (briefSpec l)
  | [], str => by rw [List.foldl_nil, briefSpec_nil, concatBrief_empty_right]
  | a :: l, str => by
      rw [List.foldl_cons, foldl_concatBrief l (concatBrief str a)]
      by_cases ha : a = ""
      · subst ha
        rw [concatBrief_empty_right, briefSpec_cons_empty]
      · rw [briefSpec_cons_ne a l ha, concatBrief_assoc str a _ ha]

theorem briefLoop_eq_fold :
    ∀ (c : Option Err) (str m : String),
      FormatBriefLoop str m c =
        List.foldl concatBrief str (m :: briefMsgs c)
  | none, str, m => by
      rw [FormatBriefLoop, briefMsgs, List.foldl_cons, List.foldl_nil]
  | some (Err.plain tag t), str, m => by
      rw [FormatBriefLoop, briefMsgs, List.foldl_cons, List.foldl_cons,
        List.foldl_nil]
  | some (Err.node m' c' code' sc' f' fn' l'), str, m => by
      rw [FormatBriefLoop, briefMsgs, List.foldl_cons]
      exact briefLoop_eq_fold c' (concatBrief str m) m'

end BriefLemmas

/-- C7: the brief rendering of a node chain is the `": "`-separated
concatenation of the node messages, outermost first, with empty
messages skipped (so no dangling separator appears) and the terminal
plain cause's text appended last; in particular, the three-level chain
with messages "a", "b", "c" (innermost to outermost) around the
terminal error "boom" renders as "c: b: a: boom". -/
theorem C7_format_brief :
    (∀ (m : String) (c : Option Err) (code : Nat) (statusCode : Int)
      (f fn : String) (l : Int),
      FormatBrief (Err.node m c code statusCode f fn l) =
        briefSpec (m :: briefMsgs c)) ∧
    Option.map FormatBrief exampleChain = some "c: b: a: boom" := by
  constructor
  · intro m c code statusCode f fn l
    rw [FormatBrief, briefLoop_eq_fold c "" m, foldl_concatBrief,
      concatBrief_empty_left]
  · have h : exampleChain =
        some (Err.node "c" (some (Err.node "b" (some (Err.node "a"
          (some (Err.plain 0 "boom")) NoCode NoStatusCode "" "" 0))
          NoCode NoStatusCode "" "" 0)) NoCode NoStatusCode "" "" 0) :=
      rfl
    rw [h]
    simp only [Option.map, FormatBrief, FormatBriefLoop, concatBrief]
    decide

end Etrace
